import Mathlib

/-!
Shallow embedding of the denspart variational-Hirshfeld core
(`denspart/vh.py` and `denspart/properties.py`).

Real-valued NumPy arrays are modelled as `List ℚ`; the natural logarithm,
which is transcendental, is passed around as an explicit function
`log : ℚ → ℚ`, so every definition stays computable.  NumPy's partial
operations are modelled explicitly:

* slice extraction `a[i:j]` truncates at the end of the array
  (`(a.drop i).take (j - i)`);
* slice assignment `a[i:j] = b` succeeds when the lengths agree, broadcasts
  a length-one right-hand side, and raises otherwise (`npSetSlice`);
* fancy indexing `a[idx]` is modelled with `List.getD` (claims that depend
  on it carry in-range hypotheses);
* `np.add.at` is an unbuffered scatter-add (`scatterAdd`).

Python's in-place mutation of `ProModel` is modelled by explicit state
passing: methods that mutate return the updated model.
-/

/-- A point in 3D Cartesian space. -/
abbrev Point := ℚ × ℚ × ℚ

/-- Componentwise difference of two points (used for `localgrid.points - atcoord`). -/
def ptSub (a b : Point) : Point := (a.1 - b.1, a.2.1 - b.2.1, a.2.2 - b.2.2)

/-- A local integration grid: a view into the global grid, with ordered
`indices` into the parent grid and the corresponding `points` and `weights`. -/
structure LocalGrid where
  indices : List ℕ
  points : List Point
  weights : List ℚ

/-- The global integration grid.  `get_localgrid` is the external
restriction-by-radius query (`grid.get_localgrid(center, radius)`). -/
structure Grid where
  points : List Point
  weights : List ℚ
  get_localgrid : Point → ℚ → LocalGrid

/-- Behaviour of a concrete basis-function shape family: the abstract methods
of `BasisFunction` that subclasses implement.  Each takes the current
parameter vector explicitly (the Python methods read `self.pars`). -/
structure Shape where
  population : List ℚ → ℚ
  population_derivatives : List ℚ → List ℚ
  get_cutoff_radius : List ℚ → ℚ → ℚ
  compute : List ℚ → List Point → List ℚ
  compute_derivatives : List ℚ → List Point → List (List ℚ)

/-- An atom-centered basis function (`BasisFunction`): atom index, center,
current parameter vector, per-parameter bounds, and its shape family. -/
structure BasisFunction where
  iatom : ℕ
  center : Point
  pars : List ℚ
  bounds : List (ℚ × ℚ)
  shape : Shape

/-- `BasisFunction.__init__`: raises when the number of parameters differs
from the number of bounds, otherwise stores the fields. -/
def mkBasisFunction (iatom : ℕ) (center : Point) (pars : List ℚ)
    (bounds : List (ℚ × ℚ)) (shape : Shape) : Except String BasisFunction :=
  if pars.length ≠ bounds.length then
    Except.error "The number of parameters must equal the number of bounds."
  else
    Except.ok { iatom := iatom, center := center, pars := pars, bounds := bounds, shape := shape }

/-- Number of parameters of a basis function (`BasisFunction.npar`). -/
def BasisFunction.npar (fn : BasisFunction) : ℕ := fn.pars.length

/-- Population of a basis function at its current parameters. -/
def BasisFunction.population (fn : BasisFunction) : ℚ := fn.shape.population fn.pars

/-- Derivatives of the population w.r.t. the parameters, at the current
parameters. -/
def BasisFunction.population_derivatives (fn : BasisFunction) : List ℚ :=
  fn.shape.population_derivatives fn.pars

/-- The pro-molecular density model (`ProModel`): atom metadata, the ordered
list of basis functions, and the diagnostic evaluation counter. -/
structure ProModel where
  atnums : List ℕ
  atcoords : List Point
  fns : List BasisFunction
  ncompute : ℕ

/-- Number of atoms (`ProModel.natom`). -/
def ProModel.natom (m : ProModel) : ℕ := m.atnums.length

/-- Total number of parameters of the model: sum of all functions'
parameter counts (the length `assign_pars` is supposed to consume). -/
def ProModel.nparTotal (m : ProModel) : ℕ := (m.fns.map BasisFunction.npar).sum

/-- Promolecular population (`ProModel.population`):
`sum(fn.population for fn in self.fns)`. -/
def ProModel.population (m : ProModel) : ℚ :=
  (m.fns.map BasisFunction.population).sum

/-- Proatomic charges (`ProModel.charges`): start from the atomic numbers and
subtract each function's population at its atom's slot. -/
def ProModel.charges (m : ProModel) : List ℚ :=
  m.fns.foldl
    (fun ch fn => ch.set fn.iatom (ch.getD fn.iatom 0 - fn.population))
    (m.atnums.map (fun (z : ℕ) => (z : ℚ)))

/-- Result dictionary of `ProModel.get_results`. -/
structure Results where
  atnfn : List ℕ
  atnpar : List ℕ
  propars : List ℚ

/-- Counting loop of `ProModel.get_results`: `atnfn[fn.iatom] += 1` and
`atnpar[fn.iatom] += len(fn.pars)` per function, in function order.  NumPy
raises an IndexError at the first out-of-range access; both arrays always
have the same length, so the one bound check covers both increments. -/
def getResultsCounts (fns : List BasisFunction) (atnfn atnpar : List ℕ) :
    Except String (List ℕ × List ℕ) :=
  match fns with
  | [] => Except.ok (atnfn, atnpar)
  | fn :: rest =>
      if fn.iatom < atnfn.length then
        getResultsCounts rest
          (atnfn.set fn.iatom (atnfn.getD fn.iatom 0 + 1))
          (atnpar.set fn.iatom (atnpar.getD fn.iatom 0 + fn.pars.length))
      else Except.error "index out of bounds"

/-- `np.concatenate`: raises when given no arrays at all, otherwise joins
them. -/
def npConcatenate (arrays : List (List ℚ)) : Except String (List ℚ) :=
  if arrays.isEmpty then Except.error "need at least one array to concatenate"
  else Except.ok arrays.flatten

/-- `ProModel.get_results`: per-atom function and parameter counts plus the
concatenated parameter vector.  Raises for an out-of-range atom index in
the counting loop, and at `np.concatenate` when the model has no basis
functions. -/
def ProModel.get_results (m : ProModel) : Except String Results := do
  let counts ← getResultsCounts m.fns (List.replicate m.natom 0) (List.replicate m.natom 0)
  let propars ← npConcatenate (m.fns.map BasisFunction.pars)
  Except.ok { atnfn := counts.1, atnpar := counts.2, propars := propars }

/-- NumPy full-slice assignment `dst[:] = src`: succeeds when the lengths
agree, broadcasts a length-one `src`, raises a broadcast error otherwise. -/
def sliceAssignFull (dst src : List ℚ) : Except String (List ℚ) :=
  if src.length = dst.length then Except.ok src
  else if src.length = 1 then Except.ok (List.replicate dst.length (src.headD 0))
  else Except.error "could not broadcast input array"

/-- Recursive worker for `ProModel.assign_pars`: walks the functions in
order, extracting `pars[ipar : ipar + fn.npar]` (which truncates at the end
of the vector, as NumPy slicing does) and assigning it into `fn.pars[:]`. -/
def assignParsList (fns : List BasisFunction) (pars : List ℚ) (ipar : ℕ) :
    Except String (List BasisFunction) :=
  match fns with
  | [] => Except.ok []
  | fn :: rest => do
      let newPars ← sliceAssignFull fn.pars ((pars.drop ipar).take fn.npar)
      let rest' ← assignParsList rest pars (ipar + fn.npar)
      Except.ok ({ fn with pars := newPars } :: rest')

/-- `ProModel.assign_pars`: distribute a flat parameter vector over the basis
functions, contiguously in function order. -/
def ProModel.assign_pars (m : ProModel) (pars : List ℚ) : Except String ProModel := do
  let fns' ← assignParsList m.fns pars 0
  Except.ok { m with fns := fns' }

/-- Unbuffered scatter-add `np.add.at(pro, indices, vals)`: repeated indices
accumulate. -/
def scatterAdd (pro : List ℚ) (indices : List ℕ) (vals : List ℚ) : List ℚ :=
  (indices.zip vals).foldl (fun acc p => acc.set p.1 (acc.getD p.1 0 + p.2)) pro

/-- `ProModel.compute_density`: increment the evaluation counter, then for
each basis function scatter-add its values on its local grid into a
full-grid-sized accumulator of zeros. -/
def ProModel.compute_density (m : ProModel) (grid : Grid) (localgrids : List LocalGrid) :
    ProModel × List ℚ :=
  let m' : ProModel := { m with ncompute := m.ncompute + 1 }
  let pro := (m'.fns.zip localgrids).foldl
    (fun acc p => scatterAdd acc p.2.indices (p.1.shape.compute p.1.pars p.2.points))
    (grid.weights.map (fun _ => 0))
  (m', pro)

/-- Elementwise sum of two equally long vectors (`pro += ...`). -/
def addVec (xs ys : List ℚ) : List ℚ := List.zipWith (fun a b => a + b) xs ys

/-- `ProModel.compute_proatom`: sum the values of the functions belonging to
one atom on the given grid's points, starting from zeros shaped like the
grid's weights.  It reads only `self.fns` and performs no mutation. -/
def ProModel.compute_proatom (m : ProModel) (iatom : ℕ)
    (points : List Point) (weights : List ℚ) : List ℚ :=
  m.fns.foldl
    (fun pro fn => if fn.iatom = iatom then addVec pro (fn.shape.compute fn.pars points) else pro)
    (weights.map (fun _ => 0))

/-- Weighted dot product `np.einsum("i,i", w, d)`. -/
def dotl (xs ys : List ℚ) : ℚ := (List.zipWith (fun a b => a * b) xs ys).sum

/-- Triple contraction `np.einsum("i,i,i", w, d, l)`. -/
def trisum (xs ys zs : List ℚ) : ℚ :=
  (List.zipWith (fun a b => a * b) (List.zipWith (fun a b => a * b) xs ys) zs).sum

/-- Force the entries flagged by the boolean mask to zero
(`arr[sick] = 0.0`). -/
def maskZero (mask : List Bool) (xs : List ℚ) : List ℚ :=
  List.zipWith (fun b x => if b then 0 else x) mask xs

/-- Per-function gradient block of `ekld`:
`fn.population_derivatives - np.einsum("i,i,ji", localgrid.weights,
ratio[localgrid.indices], fn_derivatives)`. -/
def gradBlock (fn : BasisFunction) (lg : LocalGrid) (rat : List ℚ) : List ℚ :=
  let fn_derivatives := fn.shape.compute_derivatives fn.pars lg.points
  let ratLoc := lg.indices.map (fun i => rat.getD i 0)
  List.zipWith (fun pd row => pd - trisum lg.weights ratLoc row)
    fn.population_derivatives fn_derivatives

/-- NumPy slice assignment `xs[a:b] = block`: the destination slice is
clamped to the array, the block must match its length (or have length one,
which broadcasts). -/
def npSetSlice (xs : List ℚ) (a b : ℕ) (block : List ℚ) : Except String (List ℚ) :=
  let lo := min a xs.length
  let hi := min b xs.length
  if block.length = hi - lo then
    Except.ok (xs.take lo ++ block ++ xs.drop hi)
  else if block.length = 1 then
    Except.ok (xs.take lo ++ List.replicate (hi - lo) (block.headD 0) ++ xs.drop hi)
  else Except.error "could not broadcast input array"

/-- Gradient loop of `ekld`: `gradient[ipar : ipar + fn.npar]` is assigned
per function, with `ipar` accumulating the parameter counts; indexing
`localgrids[ifn]` raises when the list is too short. -/
def ekldGrad (fns : List BasisFunction) (localgrids : List LocalGrid)
    (rat : List ℚ) (gradient : List ℚ) (ipar : ℕ) : Except String (List ℚ) :=
  match fns, localgrids with
  | [], _ => Except.ok gradient
  | _ :: _, [] => Except.error "list index out of range"
  | fn :: fns', lg :: lgs' => do
      let gradient' ← npSetSlice gradient ipar (ipar + fn.npar) (gradBlock fn lg rat)
      ekldGrad fns' lgs' rat gradient' (ipar + fn.npar)

/-- The extended KL divergence evaluator `ekld`.  Returns the model after its
in-place mutations (`assign_pars`, the `compute_density` counter increment)
together with the objective value and the gradient. -/
def ekld (log : ℚ → ℚ) (pars : List ℚ) (grid : Grid) (density : List ℚ)
    (pro_model : ProModel) (localgrids : List LocalGrid) (pop : ℚ)
    (density_cutoff : ℚ) : Except String (ProModel × ℚ × List ℚ) := do
  let pro_model ← pro_model.assign_pars pars
  let res := pro_model.compute_density grid localgrids
  let pro_model := res.1
  let pro := res.2
  let sick := List.zipWith
    (fun d p => decide (d < density_cutoff) || decide (p < density_cutoff)) density pro
  let lnr := maskZero sick (List.zipWith (fun d p => log d - log p) density pro)
  let rat := maskZero sick (List.zipWith (fun d p => d / p) density pro)
  let kld := trisum grid.weights density lnr
  let constraint := pop - pro_model.population
  let result := kld - constraint
  let gradient ← ekldGrad pro_model.fns localgrids rat (pars.map (fun _ => 0)) 0
  Except.ok (pro_model, result, gradient)

/-- Result object of SciPy's `minimize` (the fields the driver reads). -/
structure OptResult where
  success : Bool
  x : List ℚ
  message : String

/-- The black-box SciPy minimizer, abstracted: it receives the cost/gradient
closure, the initial parameters, the concatenated bounds, `gtol`, and the
model (whose state its evaluator calls may mutate), and returns the
optimization result together with the model state after its calls. -/
abbrev Minimizer :=
  (List ℚ → ProModel → Except String (ProModel × ℚ × List ℚ)) →
    List ℚ → List (ℚ × ℚ) → ℚ → ProModel → OptResult × ProModel

/-- The driver `optimize_pro_model`: build local grids, integrate the
density, run the minimizer on the `ekld` closure (whose density cutoff is
`ekld`'s own default 1e-15, not the driver's `density_cutoff`), raise on
convergence failure, otherwise write the converged parameters back and
return the model with the local grids. -/
def optimize_pro_model (minimize : Minimizer) (log : ℚ → ℚ) (pro_model : ProModel)
    (grid : Grid) (density : List ℚ) (gtol : ℚ) (density_cutoff : ℚ) :
    Except String (ProModel × List LocalGrid) :=
  let localgrids := pro_model.fns.map
    (fun fn => grid.get_localgrid fn.center (fn.shape.get_cutoff_radius fn.pars density_cutoff))
  let pop := dotl grid.weights density
  let pars0 := (pro_model.fns.map BasisFunction.pars).flatten
  let cost_grad := fun p m => ekld log p grid density m localgrids pop (1 / 10 ^ 15)
  let bounds := (pro_model.fns.map BasisFunction.bounds).flatten
  let res := minimize cost_grad pars0 bounds gtol pro_model
  if res.1.success = false then
    Except.error "Convergence failure."
  else do
    let pro_model ← res.2.assign_pars res.1.x
    Except.ok (pro_model, localgrids)

/-- Weighted integral of `localgrid.integrate(a, b, c)`: sum of the
elementwise product of the local weights with the given value arrays. -/
def LocalGrid.integrate (lg : LocalGrid) (a b c : List ℚ) : ℚ :=
  (List.zipWith (fun x y => x * y)
    (List.zipWith (fun x y => x * y) (List.zipWith (fun x y => x * y) lg.weights a) b) c).sum

/-- `compute_radial_moments` (`denspart/properties.py`): evaluate the model
density once, then for each atom integrate `density · r^n · sharing` over a
local grid of fixed radius 8.  The Euclidean norm is passed in as `nrm`
(its value is irrational in general).  Returns the model after the
`compute_density` call together with the moment table. -/
def compute_radial_moments (nrm : Point → ℚ) (pro_model : ProModel) (grid : Grid)
    (density : List ℚ) (localgrids : List LocalGrid) (nmax : ℕ) :
    ProModel × List (List ℚ) :=
  let res := pro_model.compute_density grid localgrids
  let pro_model' := res.1
  let pro := res.2
  let result := pro_model'.atcoords.enum.map (fun p =>
    let localgrid := grid.get_localgrid p.2 8
    let dists := localgrid.points.map (fun pt => nrm (ptSub pt p.2))
    let pro_atom := pro_model'.compute_proatom p.1 localgrid.points localgrid.weights
    let shr := List.zipWith (fun x y => x / y)
      pro_atom (localgrid.indices.map (fun i => pro.getD i 0))
    (List.range (nmax + 1)).map (fun degree =>
      localgrid.integrate (localgrid.indices.map (fun i => density.getD i 0))
        (dists.map (fun x => x ^ degree)) shr))
  (pro_model', result)

/-! ### Generic list lemmas -/

lemma sum_eq_range_getD (l : List ℚ) :
    l.sum = ∑ i ∈ Finset.range l.length, l.getD i 0 := by
  induction l with
  | nil => simp
  | cons a t ih =>
      rw [List.sum_cons, List.length_cons, Finset.sum_range_succ']
      simp only [List.getD_cons_succ, List.getD_cons_zero]
      rw [← ih]
      ring

lemma getD_zipWith_lt {α β γ : Type} (f : α → β → γ) (xs : List α) (ys : List β) (i : ℕ)
    (hx : i < xs.length) (hy : i < ys.length) (da : α) (db : β) (dc : γ) :
    (List.zipWith f xs ys).getD i dc = f (xs.getD i da) (ys.getD i db) := by
  have hz : i < (List.zipWith f xs ys).length := by
    rw [List.length_zipWith]; omega
  rw [List.getD_eq_getElem _ _ hz, List.getD_eq_getElem _ _ hx, List.getD_eq_getElem _ _ hy,
    List.getElem_zipWith]

lemma getD_map_lt {α β : Type} (f : α → β) (xs : List α) (i : ℕ)
    (hx : i < xs.length) (da : α) (db : β) :
    (xs.map f).getD i db = f (xs.getD i da) := by
  have hm : i < (xs.map f).length := by simpa using hx
  rw [List.getD_eq_getElem _ _ hm, List.getD_eq_getElem _ _ hx, List.getElem_map]

lemma getD_set_self_q (l : List ℚ) (i : ℕ) (v : ℚ) (h : i < l.length) :
    (l.set i v).getD i 0 = v := by
  rw [List.getD_eq_getElem _ _ (by simpa using h), List.getElem_set_self]

lemma getD_set_ne_q (l : List ℚ) (i j : ℕ) (v : ℚ) (h : i ≠ j) :
    (l.set i v).getD j 0 = l.getD j 0 := by
  simp [List.getD, List.getElem?_set_ne h]

lemma sum_set_q (l : List ℚ) (i : ℕ) (v : ℚ) (h : i < l.length) :
    (l.set i v).sum = l.sum + v - l.getD i 0 := by
  induction l generalizing i with
  | nil => simp at h
  | cons a t ih =>
      cases i with
      | zero => simp [List.set]; ring
      | succ n =>
          have hn : n < t.length := by simpa using h
          simp only [List.set, List.sum_cons, List.getD_cons_succ]
          rw [ih n hn]
          ring

/-- `trisum` over three equally long vectors is the indexwise triple sum. -/
lemma trisum_eq_sum (w d l : List ℚ) (hd : d.length = w.length) (hl : l.length = w.length) :
    trisum w d l = ∑ i ∈ Finset.range w.length, w.getD i 0 * d.getD i 0 * l.getD i 0 := by
  have hwd : (List.zipWith (fun a b => a * b) w d).length = w.length := by
    rw [List.length_zipWith]; omega
  have hlen : (List.zipWith (fun a b => a * b) (List.zipWith (fun a b => a * b) w d) l).length
      = w.length := by
    rw [List.length_zipWith]; omega
  rw [trisum, sum_eq_range_getD, hlen]
  refine Finset.sum_congr rfl (fun i hi => ?_)
  have hiw : i < w.length := Finset.mem_range.mp hi
  rw [getD_zipWith_lt _ _ _ _ (by omega) (by omega) 0 0 0,
    getD_zipWith_lt _ _ _ _ (by omega) (by omega) 0 0 0]

/-! ### Lemmas about `assign_pars` -/

/-- When the flat vector reaches at least through position
`ipar + Σ npar`, every slice is exact: the assignment succeeds and the new
parameter lists concatenate to the consumed window of the vector. -/
lemma assignParsList_ok (fns : List BasisFunction) (pars : List ℚ) (ipar : ℕ)
    (h : ipar + (fns.map BasisFunction.npar).sum ≤ pars.length) :
    ∃ fns', assignParsList fns pars ipar = Except.ok fns' ∧
      (fns'.map BasisFunction.pars).flatten
        = (pars.drop ipar).take ((fns.map BasisFunction.npar).sum) := by
  induction fns generalizing ipar with
  | nil => exact ⟨[], rfl, by simp⟩
  | cons fn rest ih =>
      have hsum : ipar + fn.npar + (rest.map BasisFunction.npar).sum ≤ pars.length := by
        simp only [List.map_cons, List.sum_cons] at h; omega
      obtain ⟨rest', hrest, hflat⟩ := ih (ipar + fn.npar) hsum
      have hnp : fn.npar = fn.pars.length := rfl
      have hslice : ((pars.drop ipar).take fn.npar).length = fn.pars.length := by
        rw [List.length_take, List.length_drop, ← hnp]
        omega
      have hassign : sliceAssignFull fn.pars ((pars.drop ipar).take fn.npar)
          = Except.ok ((pars.drop ipar).take fn.npar) := by
        rw [sliceAssignFull, if_pos hslice]
      refine ⟨{ fn with pars := (pars.drop ipar).take fn.npar } :: rest', ?_, ?_⟩
      · simp only [assignParsList, hassign, hrest]
        rfl
      · simp only [List.map_cons, List.flatten_cons, List.sum_cons, hflat]
        rw [List.take_add]
        congr 1
        rw [List.drop_drop]

/-- `assign_pars` never fails when the vector covers the total parameter
count; the functions receive exactly the contiguous slices. -/
lemma assign_pars_ok (m : ProModel) (pars : List ℚ) (h : m.nparTotal ≤ pars.length) :
    ∃ m', m.assign_pars pars = Except.ok m' ∧
      (m'.fns.map BasisFunction.pars).flatten = pars.take m.nparTotal := by
  obtain ⟨fns', hfns, hflat⟩ := assignParsList_ok m.fns pars 0 (by simpa using h)
  exact ⟨{ m with fns := fns' }, by rw [ProModel.assign_pars, hfns]; rfl, by simpa using hflat⟩

/-! ### Specification-side formulas for `ekld`

These definitions transcribe the spec's description of the evaluator (value
as a masked weighted sum minus the population-constraint term; gradient as
analytic population derivatives minus a masked local projection).  The
claims compare them with the operational `ekld` above. -/

/-- Pointwise masked log-ratio: zero at sick points, else
`log d − log p`. -/
def maskedLnTerm (log : ℚ → ℚ) (cutoff d p : ℚ) : ℚ :=
  if d < cutoff ∨ p < cutoff then 0 else log d - log p

/-- Pointwise masked density quotient: zero at sick points, else `d / p`. -/
def maskedDivTerm (cutoff d p : ℚ) : ℚ :=
  if d < cutoff ∨ p < cutoff then 0 else d / p

/-- The spec's objective value: weighted sum over all grid points of
`density × (log density − log model_density)` with the log-ratio forced to
zero at masked points, minus `(reference_population − model_population)`. -/
def ekldValueSpec (log : ℚ → ℚ) (w density pro : List ℚ) (cutoff pop mpop : ℚ) : ℚ :=
  (∑ i ∈ Finset.range w.length,
      w.getD i 0 * density.getD i 0
        * maskedLnTerm log cutoff (density.getD i 0) (pro.getD i 0))
    - (pop - mpop)

/-- The spec's gradient slice for one basis function: analytic population
derivatives minus the weighted projection of the masked density quotient
onto the parameter-derivative matrix, summed over the function's local
grid only. -/
def gradBlockSpec (fn : BasisFunction) (lg : LocalGrid) (ratAt : ℕ → ℚ) : List ℚ :=
  (List.range fn.npar).map (fun j =>
    fn.population_derivatives.getD j 0 -
      ∑ i ∈ Finset.range lg.weights.length,
        lg.weights.getD i 0 * ratAt (lg.indices.getD i 0) *
          ((fn.shape.compute_derivatives fn.pars lg.points).getD j []).getD i 0)

/-- The spec's full gradient: the per-function slices laid out contiguously
in function order. -/
def ekldGradSpec (fns : List BasisFunction) (lgs : List LocalGrid) (ratAt : ℕ → ℚ) : List ℚ :=
  ((fns.zip lgs).map (fun p => gradBlockSpec p.1 p.2 ratAt)).flatten

/-- Shape-consistency of one basis function with its local grid: the local
grid's parallel arrays have equal lengths and the derivative data has the
documented shape (one row per parameter, one column per local point). -/
def EkldFnHyp (fn : BasisFunction) (lg : LocalGrid) : Prop :=
  lg.indices.length = lg.weights.length ∧
  fn.population_derivatives.length = fn.npar ∧
  (fn.shape.compute_derivatives fn.pars lg.points).length = fn.npar ∧
  ∀ row ∈ fn.shape.compute_derivatives fn.pars lg.points, row.length = lg.weights.length

/-! ### Length lemmas for the density accumulators -/

lemma scatterAdd_length (idx : List ℕ) (vals : List ℚ) (pro : List ℚ) :
    (scatterAdd pro idx vals).length = pro.length := by
  rw [scatterAdd]
  generalize idx.zip vals = ps
  induction ps generalizing pro with
  | nil => rfl
  | cons p t ih => rw [List.foldl_cons, ih, List.length_set]

lemma compute_density_fst (m : ProModel) (grid : Grid) (lgs : List LocalGrid) :
    (m.compute_density grid lgs).1 = { m with ncompute := m.ncompute + 1 } := rfl

lemma compute_density_snd_length (m : ProModel) (grid : Grid) (lgs : List LocalGrid) :
    (m.compute_density grid lgs).2.length = grid.weights.length := by
  have key : ∀ (ps : List (BasisFunction × LocalGrid)) (acc : List ℚ),
      (ps.foldl (fun acc p => scatterAdd acc p.2.indices (p.1.shape.compute p.1.pars p.2.points))
        acc).length = acc.length := by
    intro ps
    induction ps with
    | nil => intro acc; rfl
    | cons p t ih => intro acc; rw [List.foldl_cons, ih, scatterAdd_length]
  simp only [ProModel.compute_density]
  rw [key]
  simp

/-! ### The masked pointwise arrays -/

/-- Reading any position of a masked `zipWith` array built from `density`
and `pro` gives the corresponding masked pointwise term; positions past the
end read the default zero on both sides (the cutoff is positive, so the
mask fires on the default density 0). -/
lemma maskZero_zipWith_getD (g : ℚ → ℚ → ℚ) (density pro : List ℚ) (cutoff : ℚ)
    (hcut : 0 < cutoff) (hlen : density.length = pro.length) (t : ℕ) :
    (maskZero
        (List.zipWith (fun d p => decide (d < cutoff) || decide (p < cutoff)) density pro)
        (List.zipWith g density pro)).getD t 0
      = if density.getD t 0 < cutoff ∨ pro.getD t 0 < cutoff then 0
        else g (density.getD t 0) (pro.getD t 0) := by
  by_cases ht : t < density.length
  · rw [maskZero,
      getD_zipWith_lt _ _ _ _ (by rw [List.length_zipWith]; omega)
        (by rw [List.length_zipWith]; omega) false 0 0,
      getD_zipWith_lt _ _ _ _ ht (by omega) 0 0 false,
      getD_zipWith_lt _ _ _ _ ht (by omega) 0 0 0]
    by_cases h1 : density.getD t 0 < cutoff
    · simp [h1]
    · by_cases h2 : pro.getD t 0 < cutoff
      · simp [h1, h2]
      · simp [h1, h2]
  · have hmlen : (maskZero
        (List.zipWith (fun d p => decide (d < cutoff) || decide (p < cutoff)) density pro)
        (List.zipWith g density pro)).length ≤ t := by
      rw [maskZero, List.length_zipWith, List.length_zipWith, List.length_zipWith]
      omega
    rw [List.getD_eq_default _ _ hmlen,
      List.getD_eq_default _ _ (by omega : density.length ≤ t),
      List.getD_eq_default _ _ (by omega : pro.length ≤ t)]
    rw [if_pos (Or.inl hcut)]

/-! ### The gradient loop -/

lemma bindOk {α β : Type} (a : α) (f : α → Except String β) :
    (Except.ok a : Except String α) >>= f = f a := rfl

lemma gradBlock_length (fn : BasisFunction) (lg : LocalGrid) (rat : List ℚ)
    (h : EkldFnHyp fn lg) : (gradBlock fn lg rat).length = fn.npar := by
  obtain ⟨hidx, hpd, hdrv, _⟩ := h
  simp only [gradBlock, List.length_zipWith]
  omega

/-- When every block has exactly its function's parameter count and the
gradient buffer spans the parameter total, the slice-assignment loop writes
the blocks contiguously after the untouched first `ipar` entries. -/
lemma ekldGrad_ok (fns : List BasisFunction) :
    ∀ (lgs : List LocalGrid) (rat grad : List ℚ) (ipar : ℕ),
      lgs.length = fns.length →
      grad.length = ipar + (fns.map BasisFunction.npar).sum →
      (∀ p ∈ fns.zip lgs, (gradBlock p.1 p.2 rat).length = p.1.npar) →
      ekldGrad fns lgs rat grad ipar =
        Except.ok (grad.take ipar
          ++ ((fns.zip lgs).map (fun p => gradBlock p.1 p.2 rat)).flatten) := by
  induction fns with
  | nil =>
      intro lgs rat grad ipar hl hg _
      have hnil : lgs = [] := List.length_eq_zero.mp (by simpa using hl)
      subst hnil
      simp only [ekldGrad, List.zip_nil_right, List.map_nil, List.flatten_nil, List.append_nil]
      rw [List.take_of_length_le
        (by simp only [List.map_nil, List.sum_nil] at hg; omega)]
  | cons fn fns' ih =>
      intro lgs rat grad ipar hl hg hb
      cases lgs with
      | nil => simp at hl
      | cons lg lgs' =>
          have hblock : (gradBlock fn lg rat).length = fn.npar :=
            hb (fn, lg) (by simp)
          have hrest : ipar + fn.npar + (fns'.map BasisFunction.npar).sum = grad.length := by
            simp only [List.map_cons, List.sum_cons] at hg; omega
          have hslice : npSetSlice grad ipar (ipar + fn.npar) (gradBlock fn lg rat)
              = Except.ok (grad.take ipar ++ gradBlock fn lg rat ++ grad.drop (ipar + fn.npar)) := by
            simp only [npSetSlice]
            rw [min_eq_left (by omega), min_eq_left (by omega),
              if_pos (by rw [hblock]; omega)]
          have hA : (grad.take ipar).length = ipar := by
            rw [List.length_take]; omega
          have hgrad' : (grad.take ipar ++ gradBlock fn lg rat ++ grad.drop (ipar + fn.npar)).length
              = (ipar + fn.npar) + (fns'.map BasisFunction.npar).sum := by
            simp only [List.length_append, List.length_drop, hA, hblock]
            omega
          have htake : (grad.take ipar ++ gradBlock fn lg rat
                ++ grad.drop (ipar + fn.npar)).take (ipar + fn.npar)
              = grad.take ipar ++ gradBlock fn lg rat := by
            rw [List.append_assoc,
              show ipar + fn.npar = (grad.take ipar).length + fn.npar by omega,
              List.take_append]
            congr 1
            rw [show fn.npar = (gradBlock fn lg rat).length + 0 by omega,
              List.take_append]
            simp
          rw [ekldGrad, hslice, bindOk,
            ih lgs' rat _ (ipar + fn.npar) (by simpa using hl) hgrad'
              (fun p hp => hb p (by simp [hp])),
            htake]
          simp [List.append_assoc]

/-- The operational per-function gradient block agrees with the spec's
formula when the shapes are consistent. -/
lemma gradBlock_eq_spec (fn : BasisFunction) (lg : LocalGrid) (rat : List ℚ) (ratAt : ℕ → ℚ)
    (hrat : ∀ t, rat.getD t 0 = ratAt t) (hhyp : EkldFnHyp fn lg) :
    gradBlock fn lg rat = gradBlockSpec fn lg ratAt := by
  obtain ⟨hidx, hpd, hdrv, hrows⟩ := hhyp
  have hlb : (gradBlock fn lg rat).length = fn.npar :=
    gradBlock_length fn lg rat ⟨hidx, hpd, hdrv, hrows⟩
  have hls : (gradBlockSpec fn lg ratAt).length = fn.npar := by
    simp [gradBlockSpec]
  apply List.ext_getElem (by omega)
  intro j hj1 hj2
  have hjn : j < fn.npar := by omega
  have hjpd : j < fn.population_derivatives.length := by omega
  have hjdrv : j < (fn.shape.compute_derivatives fn.pars lg.points).length := by omega
  simp only [gradBlock, List.getElem_zipWith, gradBlockSpec, List.getElem_map,
    List.getElem_range]
  congr 1
  · rw [List.getD_eq_getElem _ _ hjpd]
  · rw [trisum_eq_sum _ _ _
      (by rw [List.length_map]; omega)
      (by rw [hrows _ (List.getElem_mem hjdrv)])]
    refine Finset.sum_congr rfl (fun i hi => ?_)
    have hiw : i < lg.weights.length := Finset.mem_range.mp hi
    have hii : i < lg.indices.length := by omega
    rw [getD_map_lt _ _ _ hii 0 0, hrat, List.getD_eq_getElem _ _ hjdrv]

/-- The operational masked KL sum agrees with the spec's masked weighted
sum over all grid points. -/
lemma trisum_masked_ln (log : ℚ → ℚ) (w density pro : List ℚ) (cutoff : ℚ)
    (hcut : 0 < cutoff) (hd : density.length = w.length) (hp : pro.length = w.length) :
    trisum w density
        (maskZero
          (List.zipWith (fun d p => decide (d < cutoff) || decide (p < cutoff)) density pro)
          (List.zipWith (fun d p => log d - log p) density pro))
      = ∑ i ∈ Finset.range w.length,
          w.getD i 0 * density.getD i 0
            * maskedLnTerm log cutoff (density.getD i 0) (pro.getD i 0) := by
  rw [trisum_eq_sum _ _ _ (by omega)
    (by rw [maskZero, List.length_zipWith, List.length_zipWith, List.length_zipWith]; omega)]
  refine Finset.sum_congr rfl (fun i hi => ?_)
  rw [maskZero_zipWith_getD _ _ _ _ hcut (by omega) i, maskedLnTerm]

/-- Master description of `ekld`: under the shape-consistency hypotheses it
returns the model after the counter increment, the spec's objective value,
and the spec's contiguous gradient. -/
lemma ekld_eq_spec (log : ℚ → ℚ) (pars : List ℚ) (grid : Grid) (density : List ℚ)
    (m m₁ : ProModel) (localgrids : List LocalGrid) (pop cutoff : ℚ)
    (hassign : m.assign_pars pars = Except.ok m₁)
    (hcut : 0 < cutoff)
    (hd : density.length = grid.weights.length)
    (hlg : localgrids.length = m₁.fns.length)
    (hlen : pars.length = m₁.nparTotal)
    (hfns : ∀ p ∈ m₁.fns.zip localgrids, EkldFnHyp p.1 p.2) :
    ekld log pars grid density m localgrids pop cutoff =
      Except.ok ({ m₁ with ncompute := m₁.ncompute + 1 },
        ekldValueSpec log grid.weights density (m₁.compute_density grid localgrids).2
          cutoff pop m₁.population,
        ekldGradSpec m₁.fns localgrids
          (fun t => maskedDivTerm cutoff (density.getD t 0)
            ((m₁.compute_density grid localgrids).2.getD t 0))) := by
  have hprolen : (m₁.compute_density grid localgrids).2.length = grid.weights.length :=
    compute_density_snd_length m₁ grid localgrids
  have hratAt : ∀ t,
      (maskZero
          (List.zipWith (fun d p => decide (d < cutoff) || decide (p < cutoff)) density
            (m₁.compute_density grid localgrids).2)
          (List.zipWith (fun d p => d / p) density
            (m₁.compute_density grid localgrids).2)).getD t 0
        = maskedDivTerm cutoff (density.getD t 0)
            ((m₁.compute_density grid localgrids).2.getD t 0) := by
    intro t
    rw [maskZero_zipWith_getD _ _ _ _ hcut (by omega) t, maskedDivTerm]
  simp only [ekld, hassign, bindOk]
  rw [compute_density_fst]
  simp only []
  rw [ekldGrad_ok m₁.fns localgrids _ _ 0 hlg
    (by
      rw [List.length_map, hlen, ProModel.nparTotal]
      omega)
    (fun p hp => gradBlock_length p.1 p.2 _ (hfns p hp)),
    bindOk]
  rw [List.take_zero, List.nil_append]
  have hgrads : ((m₁.fns.zip localgrids).map (fun p =>
        gradBlock p.1 p.2
          (maskZero
            (List.zipWith (fun d p => decide (d < cutoff) || decide (p < cutoff)) density
              (m₁.compute_density grid localgrids).2)
            (List.zipWith (fun d p => d / p) density
              (m₁.compute_density grid localgrids).2))))
      = (m₁.fns.zip localgrids).map (fun p => gradBlockSpec p.1 p.2
          (fun t => maskedDivTerm cutoff (density.getD t 0)
            ((m₁.compute_density grid localgrids).2.getD t 0))) :=
    List.map_congr_left (fun p hp => gradBlock_eq_spec p.1 p.2 _ _ hratAt (hfns p hp))
  rw [hgrads]
  rw [trisum_masked_ln log grid.weights density _ cutoff hcut hd hprolen]
  rfl

/-! ### `assign_pars` preserves the parameter layout -/

lemma bindErr {α β : Type} (e : String) (f : α → Except String β) :
    (Except.error e : Except String α) >>= f = Except.error e := rfl

lemma sliceAssignFull_length (dst src out : List ℚ)
    (h : sliceAssignFull dst src = Except.ok out) : out.length = dst.length := by
  rw [sliceAssignFull] at h
  by_cases h1 : src.length = dst.length
  · rw [if_pos h1] at h
    injection h with h2
    subst h2
    exact h1
  · rw [if_neg h1] at h
    by_cases h2 : src.length = 1
    · rw [if_pos h2] at h
      injection h with h3
      subst h3
      simp
    · rw [if_neg h2] at h
      exact absurd h (by simp)

lemma assignParsList_map_npar (fns : List BasisFunction) (pars : List ℚ) (ipar : ℕ)
    (fns' : List BasisFunction) (h : assignParsList fns pars ipar = Except.ok fns') :
    fns'.map BasisFunction.npar = fns.map BasisFunction.npar := by
  induction fns generalizing fns' ipar with
  | nil =>
      rw [assignParsList] at h
      injection h with h1
      subst h1
      rfl
  | cons fn rest ih =>
      rw [assignParsList] at h
      cases hsl : sliceAssignFull fn.pars ((pars.drop ipar).take fn.npar) with
      | error e => rw [hsl, bindErr] at h; exact absurd h (by simp)
      | ok v =>
          rw [hsl, bindOk] at h
          cases hrec : assignParsList rest pars (ipar + fn.npar) with
          | error e => rw [hrec, bindErr] at h; exact absurd h (by simp)
          | ok rest' =>
              rw [hrec, bindOk] at h
              injection h with h1
              subst h1
              simp only [List.map_cons]
              congr 1
              · show v.length = fn.pars.length
                exact sliceAssignFull_length _ _ _ hsl
              · exact ih _ _ hrec

lemma assign_pars_map_npar (m m₁ : ProModel) (pars : List ℚ)
    (h : m.assign_pars pars = Except.ok m₁) :
    m₁.fns.map BasisFunction.npar = m.fns.map BasisFunction.npar := by
  rw [ProModel.assign_pars] at h
  cases hrec : assignParsList m.fns pars 0 with
  | error e => rw [hrec, bindErr] at h; exact absurd h (by simp)
  | ok fns' =>
      rw [hrec, bindOk] at h
      injection h with h1
      subst h1
      exact assignParsList_map_npar _ _ _ _ hrec

lemma assign_pars_fns_length (m m₁ : ProModel) (pars : List ℚ)
    (h : m.assign_pars pars = Except.ok m₁) : m₁.fns.length = m.fns.length := by
  have := congrArg List.length (assign_pars_map_npar m m₁ pars h)
  simpa using this

lemma assign_pars_nparTotal (m m₁ : ProModel) (pars : List ℚ)
    (h : m.assign_pars pars = Except.ok m₁) : m₁.nparTotal = m.nparTotal := by
  rw [ProModel.nparTotal, ProModel.nparTotal, assign_pars_map_npar m m₁ pars h]

lemma assignParsList_map_iatom (fns : List BasisFunction) (pars : List ℚ) (ipar : ℕ)
    (fns' : List BasisFunction) (h : assignParsList fns pars ipar = Except.ok fns') :
    fns'.map BasisFunction.iatom = fns.map BasisFunction.iatom := by
  induction fns generalizing fns' ipar with
  | nil =>
      rw [assignParsList] at h
      injection h with h1
      subst h1
      rfl
  | cons fn rest ih =>
      rw [assignParsList] at h
      cases hsl : sliceAssignFull fn.pars ((pars.drop ipar).take fn.npar) with
      | error e => rw [hsl, bindErr] at h; exact absurd h (by simp)
      | ok v =>
          rw [hsl, bindOk] at h
          cases hrec : assignParsList rest pars (ipar + fn.npar) with
          | error e => rw [hrec, bindErr] at h; exact absurd h (by simp)
          | ok rest' =>
              rw [hrec, bindOk] at h
              injection h with h1
              subst h1
              simp only [List.map_cons]
              congr 1
              exact ih _ _ hrec

lemma assign_pars_map_iatom (m m₁ : ProModel) (pars : List ℚ)
    (h : m.assign_pars pars = Except.ok m₁) :
    m₁.fns.map BasisFunction.iatom = m.fns.map BasisFunction.iatom := by
  rw [ProModel.assign_pars] at h
  cases hrec : assignParsList m.fns pars 0 with
  | error e => rw [hrec, bindErr] at h; exact absurd h (by simp)
  | ok fns' =>
      rw [hrec, bindOk] at h
      injection h with h1
      subst h1
      exact assignParsList_map_iatom _ _ _ _ hrec

lemma assign_pars_atnums (m m₁ : ProModel) (pars : List ℚ)
    (h : m.assign_pars pars = Except.ok m₁) : m₁.atnums = m.atnums := by
  rw [ProModel.assign_pars] at h
  cases hrec : assignParsList m.fns pars 0 with
  | error e => rw [hrec, bindErr] at h; exact absurd h (by simp)
  | ok fns' =>
      rw [hrec, bindOk] at h
      injection h with h1
      subst h1
      rfl

instance (fn : BasisFunction) (lg : LocalGrid) : Decidable (EkldFnHyp fn lg) :=
  inferInstanceAs (Decidable (lg.indices.length = lg.weights.length ∧
    fn.population_derivatives.length = fn.npar ∧
    (fn.shape.compute_derivatives fn.pars lg.points).length = fn.npar ∧
    ∀ row ∈ fn.shape.compute_derivatives fn.pars lg.points, row.length = lg.weights.length))

/-! ### Concrete fixtures used by the witnesses -/

/-- A concrete one-parameter shape: constant value equal to the parameter,
population equal to the parameter, unit derivatives. -/
def wShape : Shape :=
  { population := fun ps => ps.headD 0
    population_derivatives := fun _ => [1]
    get_cutoff_radius := fun _ _ => 1
    compute := fun ps pts => pts.map (fun _ => ps.headD 0)
    compute_derivatives := fun _ pts => [pts.map (fun _ => 1)] }

/-- A concrete basis function on atom 0 with one parameter. -/
def wFn : BasisFunction :=
  { iatom := 0, center := (0, 0, 0), pars := [2], bounds := [(0, 10)], shape := wShape }

/-- A concrete one-point local grid covering the whole global grid. -/
def wLG : LocalGrid := { indices := [0], points := [(0, 0, 0)], weights := [1] }

/-- A concrete one-point global grid. -/
def wGrid : Grid := { points := [(0, 0, 0)], weights := [1], get_localgrid := fun _ _ => wLG }

/-- A concrete one-atom, one-function model. -/
def wModel : ProModel :=
  { atnums := [1], atcoords := [(0, 0, 0)], fns := [wFn], ncompute := 0 }

/-- `wModel` after assigning the parameter vector `[3]`. -/
def wModel1 : ProModel :=
  { wModel with fns := [{ wFn with pars := [3] }] }

/-! ### Claims C1 and C2: the `ekld` value and gradient -/

/-- C1: for every parameter vector of the model's total parameter length,
the first component returned by `ekld` is the weighted sum over all grid
points of `density × (log density − log model_density)` — with the
log-ratio forced to zero at masked points — minus the constraint term
`(reference_population − model_population)`. -/
theorem C1_ekld_value (log : ℚ → ℚ) (pars : List ℚ) (grid : Grid) (density : List ℚ)
    (m m₁ : ProModel) (localgrids : List LocalGrid) (pop cutoff : ℚ)
    (hassign : m.assign_pars pars = Except.ok m₁)
    (hcut : 0 < cutoff)
    (hd : density.length = grid.weights.length)
    (hlg : localgrids.length = m.fns.length)
    (hlen : pars.length = m.nparTotal)
    (hfns : ∀ p ∈ m₁.fns.zip localgrids, EkldFnHyp p.1 p.2) :
    ∃ gradient, ekld log pars grid density m localgrids pop cutoff =
      Except.ok ({ m₁ with ncompute := m₁.ncompute + 1 },
        ekldValueSpec log grid.weights density (m₁.compute_density grid localgrids).2
          cutoff pop m₁.population,
        gradient) :=
  ⟨_, ekld_eq_spec log pars grid density m m₁ localgrids pop cutoff hassign hcut hd
    (by rw [assign_pars_fns_length m m₁ pars hassign]; exact hlg)
    (by rw [assign_pars_nparTotal m m₁ pars hassign]; exact hlen) hfns⟩

/-- C1 witness: a concrete one-point instantiation. -/
theorem C1_ekld_value_witness :
    ∃ gradient, ekld (fun _ => 0) [3] wGrid [1] wModel [wLG] 1 (1 / 10 ^ 15) =
      Except.ok ({ wModel1 with ncompute := wModel1.ncompute + 1 },
        ekldValueSpec (fun _ => 0) wGrid.weights [1]
          (wModel1.compute_density wGrid [wLG]).2 (1 / 10 ^ 15) 1 wModel1.population,
        gradient) :=
  C1_ekld_value (fun _ => 0) [3] wGrid [1] wModel wModel1 [wLG] 1 (1 / 10 ^ 15)
    (by rfl) (by norm_num) (by rfl) (by rfl) (by rfl) (by decide)

/-- C2: for every parameter vector of the correct total length, the gradient
returned by `ekld` consists of contiguous slices in function order, each
equal to the function's analytic population derivatives minus the weighted
projection of the masked density quotient onto its parameter-derivative
matrix, summed over that function's local grid only. -/
theorem C2_ekld_grad (log : ℚ → ℚ) (pars : List ℚ) (grid : Grid) (density : List ℚ)
    (m m₁ : ProModel) (localgrids : List LocalGrid) (pop cutoff : ℚ)
    (hassign : m.assign_pars pars = Except.ok m₁)
    (hcut : 0 < cutoff)
    (hd : density.length = grid.weights.length)
    (hlg : localgrids.length = m.fns.length)
    (hlen : pars.length = m.nparTotal)
    (hfns : ∀ p ∈ m₁.fns.zip localgrids, EkldFnHyp p.1 p.2) :
    ∃ value, ekld log pars grid density m localgrids pop cutoff =
      Except.ok ({ m₁ with ncompute := m₁.ncompute + 1 },
        value,
        ekldGradSpec m₁.fns localgrids
          (fun t => maskedDivTerm cutoff (density.getD t 0)
            ((m₁.compute_density grid localgrids).2.getD t 0))) :=
  ⟨_, ekld_eq_spec log pars grid density m m₁ localgrids pop cutoff hassign hcut hd
    (by rw [assign_pars_fns_length m m₁ pars hassign]; exact hlg)
    (by rw [assign_pars_nparTotal m m₁ pars hassign]; exact hlen) hfns⟩

/-- C2 witness: a concrete one-point instantiation. -/
theorem C2_ekld_grad_witness :
    ∃ value, ekld (fun _ => 0) [3] wGrid [1] wModel [wLG] 1 (1 / 10 ^ 15) =
      Except.ok ({ wModel1 with ncompute := wModel1.ncompute + 1 },
        value,
        ekldGradSpec wModel1.fns [wLG]
          (fun t => maskedDivTerm (1 / 10 ^ 15) (([1] : List ℚ).getD t 0)
            ((wModel1.compute_density wGrid [wLG]).2.getD t 0))) :=
  C2_ekld_grad (fun _ => 0) [3] wGrid [1] wModel wModel1 [wLG] 1 (1 / 10 ^ 15)
    (by rfl) (by norm_num) (by rfl) (by rfl) (by rfl) (by decide)

/-! ### Claim C3: sick points contribute nothing -/

/-- C3: every grid point at which the reference density or the model density
is below the cutoff contributes exactly zero to the objective value and to
every gradient component — the value and the gradient equal the same sums
restricted to the non-sick points — and the result does not depend on the
value of the logarithm at sick points, so no singular value propagates. -/
theorem C3_ekld_sick (log : ℚ → ℚ) (pars : List ℚ) (grid : Grid) (density : List ℚ)
    (m m₁ : ProModel) (localgrids : List LocalGrid) (pop cutoff : ℚ) (pro : List ℚ)
    (hassign : m.assign_pars pars = Except.ok m₁)
    (hcut : 0 < cutoff)
    (hd : density.length = grid.weights.length)
    (hlg : localgrids.length = m.fns.length)
    (hlen : pars.length = m.nparTotal)
    (hfns : ∀ p ∈ m₁.fns.zip localgrids, EkldFnHyp p.1 p.2)
    (hpro : pro = (m₁.compute_density grid localgrids).2) :
    (∃ value gradient,
      ekld log pars grid density m localgrids pop cutoff =
        Except.ok ({ m₁ with ncompute := m₁.ncompute + 1 }, value, gradient) ∧
      value = (∑ i ∈ (Finset.range grid.weights.length).filter
            (fun i => ¬(density.getD i 0 < cutoff ∨ pro.getD i 0 < cutoff)),
          grid.weights.getD i 0 * density.getD i 0
            * (log (density.getD i 0) - log (pro.getD i 0)))
        - (pop - m₁.population) ∧
      gradient = ((m₁.fns.zip localgrids).map (fun q =>
          (List.range q.1.npar).map (fun j =>
            q.1.population_derivatives.getD j 0 -
              ∑ i ∈ (Finset.range q.2.weights.length).filter
                  (fun i => ¬(density.getD (q.2.indices.getD i 0) 0 < cutoff
                    ∨ pro.getD (q.2.indices.getD i 0) 0 < cutoff)),
                q.2.weights.getD i 0
                  * (density.getD (q.2.indices.getD i 0) 0
                      / pro.getD (q.2.indices.getD i 0) 0)
                  * ((q.1.shape.compute_derivatives q.1.pars q.2.points).getD j []).getD i 0))).flatten) ∧
    (∀ log' : ℚ → ℚ,
      (∀ t, ¬(density.getD t 0 < cutoff ∨ pro.getD t 0 < cutoff) →
        log' (density.getD t 0) = log (density.getD t 0)
          ∧ log' (pro.getD t 0) = log (pro.getD t 0)) →
      ekld log' pars grid density m localgrids pop cutoff
        = ekld log pars grid density m localgrids pop cutoff) := by
  subst hpro
  have hlg1 : localgrids.length = m₁.fns.length := by
    rw [assign_pars_fns_length m m₁ pars hassign]; exact hlg
  have hlen1 : pars.length = m₁.nparTotal := by
    rw [assign_pars_nparTotal m m₁ pars hassign]; exact hlen
  have hmain := ekld_eq_spec log pars grid density m m₁ localgrids pop cutoff
    hassign hcut hd hlg1 hlen1 hfns
  constructor
  · refine ⟨_, _, hmain, ?_, ?_⟩
    · rw [ekldValueSpec]
      congr 1
      simp only [Finset.sum_filter]
      refine Finset.sum_congr rfl (fun i _ => ?_)
      by_cases hs : density.getD i 0 < cutoff
        ∨ (m₁.compute_density grid localgrids).2.getD i 0 < cutoff
      · rw [maskedLnTerm, if_pos hs, if_neg (not_not_intro hs)]
        ring
      · rw [maskedLnTerm, if_neg hs, if_pos hs]
    · rw [ekldGradSpec]
      congr 1
      refine List.map_congr_left (fun q hq => ?_)
      rw [gradBlockSpec]
      refine List.map_congr_left (fun j hj => ?_)
      congr 1
      simp only [Finset.sum_filter]
      refine Finset.sum_congr rfl (fun i _ => ?_)
      by_cases hs : density.getD (q.2.indices.getD i 0) 0 < cutoff
        ∨ (m₁.compute_density grid localgrids).2.getD (q.2.indices.getD i 0) 0 < cutoff
      · rw [maskedDivTerm, if_pos hs, if_neg (not_not_intro hs)]
        ring
      · rw [maskedDivTerm, if_neg hs, if_pos hs]
  · intro log' hlog
    have hmain' := ekld_eq_spec log' pars grid density m m₁ localgrids pop cutoff
      hassign hcut hd hlg1 hlen1 hfns
    rw [hmain', hmain]
    have hval : ekldValueSpec log' grid.weights density
        (m₁.compute_density grid localgrids).2 cutoff pop m₁.population
        = ekldValueSpec log grid.weights density
        (m₁.compute_density grid localgrids).2 cutoff pop m₁.population := by
      rw [ekldValueSpec, ekldValueSpec]
      congr 1
      refine Finset.sum_congr rfl (fun i _ => ?_)
      by_cases hs : density.getD i 0 < cutoff
        ∨ (m₁.compute_density grid localgrids).2.getD i 0 < cutoff
      · rw [maskedLnTerm, maskedLnTerm, if_pos hs, if_pos hs]
      · rw [maskedLnTerm, maskedLnTerm, if_neg hs, if_neg hs,
          (hlog i hs).1, (hlog i hs).2]
    rw [hval]

/-- C3 witness: a concrete one-point instantiation. -/
theorem C3_ekld_sick_witness :
    (∃ value gradient,
      ekld (fun _ => 0) [3] wGrid [1] wModel [wLG] 1 (1 / 10 ^ 15) =
        Except.ok ({ wModel1 with ncompute := wModel1.ncompute + 1 }, value, gradient) ∧
      value = (∑ i ∈ (Finset.range wGrid.weights.length).filter
            (fun i => ¬(([1] : List ℚ).getD i 0 < 1 / 10 ^ 15
              ∨ (wModel1.compute_density wGrid [wLG]).2.getD i 0 < 1 / 10 ^ 15)),
          wGrid.weights.getD i 0 * ([1] : List ℚ).getD i 0
            * ((fun _ => (0 : ℚ)) (([1] : List ℚ).getD i 0)
                - (fun _ => (0 : ℚ)) ((wModel1.compute_density wGrid [wLG]).2.getD i 0)))
        - (1 - wModel1.population) ∧
      gradient = ((wModel1.fns.zip [wLG]).map (fun q =>
          (List.range q.1.npar).map (fun j =>
            q.1.population_derivatives.getD j 0 -
              ∑ i ∈ (Finset.range q.2.weights.length).filter
                  (fun i => ¬(([1] : List ℚ).getD (q.2.indices.getD i 0) 0 < 1 / 10 ^ 15
                    ∨ (wModel1.compute_density wGrid [wLG]).2.getD (q.2.indices.getD i 0) 0
                        < 1 / 10 ^ 15)),
                q.2.weights.getD i 0
                  * (([1] : List ℚ).getD (q.2.indices.getD i 0) 0
                      / (wModel1.compute_density wGrid [wLG]).2.getD (q.2.indices.getD i 0) 0)
                  * ((q.1.shape.compute_derivatives q.1.pars q.2.points).getD j []).getD i 0))).flatten) ∧
    (∀ log' : ℚ → ℚ,
      (∀ t, ¬(([1] : List ℚ).getD t 0 < 1 / 10 ^ 15
          ∨ (wModel1.compute_density wGrid [wLG]).2.getD t 0 < 1 / 10 ^ 15) →
        log' (([1] : List ℚ).getD t 0) = (fun _ => (0 : ℚ)) (([1] : List ℚ).getD t 0)
          ∧ log' ((wModel1.compute_density wGrid [wLG]).2.getD t 0)
              = (fun _ => (0 : ℚ)) ((wModel1.compute_density wGrid [wLG]).2.getD t 0)) →
      ekld log' [3] wGrid [1] wModel [wLG] 1 (1 / 10 ^ 15)
        = ekld (fun _ => 0) [3] wGrid [1] wModel [wLG] 1 (1 / 10 ^ 15)) :=
  C3_ekld_sick (fun _ => 0) [3] wGrid [1] wModel wModel1 [wLG] 1 (1 / 10 ^ 15)
    (wModel1.compute_density wGrid [wLG]).2
    (by rfl) (by norm_num) (by rfl) (by rfl) (by rfl) (by decide) (by rfl)

/-! ### Claim C4: `assign_pars` on a mismatched vector -/

/-- C4 counterexample: the model has a single parameter in total, yet
`assign_pars` accepts the length-2 vector `[3, 4]` without error, silently
consuming the prefix `[3]`. -/
theorem C4_assign_pars_counterexample :
    wModel.assign_pars [3, 4] = Except.ok wModel1
      ∧ wModel.nparTotal = 1 ∧ ([3, 4] : List ℚ).length = 2 :=
  ⟨rfl, rfl, rfl⟩

/-- C4 amended: `assign_pars` does not check the total length.  A flat
vector at least as long as the model's total parameter count always
succeeds, each function receiving its contiguous slice and any excess being
silently ignored (only certain too-short vectors raise a broadcast error). -/
theorem C4_assign_pars_amended (m : ProModel) (p : List ℚ) (h : m.nparTotal ≤ p.length) :
    ∃ m', m.assign_pars p = Except.ok m' ∧
      (m'.fns.map BasisFunction.pars).flatten = p.take m.nparTotal :=
  assign_pars_ok m p h

/-- C4 amended witness: the counterexample input, through the amended
theorem. -/
theorem C4_assign_pars_amended_witness :
    wModel.nparTotal ≤ ([3, 4] : List ℚ).length ∧
    ∃ m', wModel.assign_pars [3, 4] = Except.ok m' ∧
      (m'.fns.map BasisFunction.pars).flatten = ([3, 4] : List ℚ).take wModel.nparTotal :=
  ⟨by decide, C4_assign_pars_amended wModel [3, 4] (by decide)⟩

lemma charges_fold_getD (fns : List BasisFunction) :
    ∀ (ch : List ℚ), (∀ fn ∈ fns, fn.iatom < ch.length) → ∀ a, a < ch.length →
      (fns.foldl (fun ch fn => ch.set fn.iatom (ch.getD fn.iatom 0 - fn.population)) ch).getD a 0
        = ch.getD a 0
          - ((fns.filter (fun fn => fn.iatom == a)).map BasisFunction.population).sum := by
  induction fns with
  | nil => intro ch _ a _; simp
  | cons fn rest ih =>
      intro ch h a ha
      have hfn : fn.iatom < ch.length := h fn (by simp)
      rw [List.foldl_cons,
        ih _ (fun g hg => by rw [List.length_set]; exact h g (List.mem_cons_of_mem _ hg))
          a (by rw [List.length_set]; exact ha)]
      by_cases hia : fn.iatom = a
      · subst hia
        rw [getD_set_self_q _ _ _ hfn, List.filter_cons_of_pos (by simp)]
        simp only [List.map_cons, List.sum_cons]
        ring
      · rw [getD_set_ne_q _ _ _ _ hia, List.filter_cons_of_neg (by simp [hia])]

lemma charges_fold_sum (fns : List BasisFunction) :
    ∀ (ch : List ℚ), (∀ fn ∈ fns, fn.iatom < ch.length) →
      (fns.foldl (fun ch fn => ch.set fn.iatom (ch.getD fn.iatom 0 - fn.population)) ch).sum
        = ch.sum - (fns.map BasisFunction.population).sum := by
  induction fns with
  | nil => intro ch _; simp
  | cons fn rest ih =>
      intro ch h
      have hfn : fn.iatom < ch.length := h fn (by simp)
      rw [List.foldl_cons,
        ih _ (fun g hg => by rw [List.length_set]; exact h g (List.mem_cons_of_mem _ hg)),
        sum_set_q _ _ _ hfn]
      simp only [List.map_cons, List.sum_cons]
      ring

/-! ### Claim C5: charges -/

/-- C5: each charge is the atomic number minus the summed populations of
that atom's functions, and the total charge is the summed atomic numbers
minus the model population. -/
theorem C5_charges (m : ProModel) (h : ∀ fn ∈ m.fns, fn.iatom < m.natom) :
    (∀ a, a < m.natom →
      m.charges.getD a 0 = (m.atnums.getD a 0 : ℚ)
        - ((m.fns.filter (fun fn => fn.iatom == a)).map BasisFunction.population).sum) ∧
    m.charges.sum = (m.atnums.map (fun (z : ℕ) => (z : ℚ))).sum - m.population := by
  have hinit : (m.atnums.map (fun (z : ℕ) => (z : ℚ))).length = m.natom := by
    rw [List.length_map]; rfl
  constructor
  · intro a ha
    rw [ProModel.charges,
      charges_fold_getD m.fns _ (by rw [hinit]; exact h) a (by rw [hinit]; exact ha),
      getD_map_lt _ _ _ ha 0 0]
  · rw [ProModel.charges, charges_fold_sum m.fns _ (by rw [hinit]; exact h)]
    rfl

/-- C5 witness: the concrete one-atom model. -/
theorem C5_charges_witness :
    (∀ a, a < wModel.natom →
      wModel.charges.getD a 0 = (wModel.atnums.getD a 0 : ℚ)
        - ((wModel.fns.filter (fun fn => fn.iatom == a)).map BasisFunction.population).sum) ∧
    wModel.charges.sum = (wModel.atnums.map (fun (z : ℕ) => (z : ℚ))).sum - wModel.population :=
  C5_charges wModel (by decide)

/-! ### Claim C6: round-trip through `assign_pars` and `get_results` -/

lemma getResultsCounts_ok (fns : List BasisFunction) :
    ∀ (atnfn atnpar : List ℕ), (∀ fn ∈ fns, fn.iatom < atnfn.length) →
      ∃ c, getResultsCounts fns atnfn atnpar = Except.ok c := by
  induction fns with
  | nil => intro a b _; exact ⟨(a, b), rfl⟩
  | cons fn rest ih =>
      intro a b h
      simp only [getResultsCounts]
      rw [if_pos (h fn (by simp))]
      exact ih _ _ (fun g hg => by rw [List.length_set]; exact h g (List.mem_cons_of_mem _ hg))

/-- `get_results` succeeds exactly on models with at least one basis
function and all atom indices in range; on success `propars` is the
concatenation of the parameter vectors. -/
lemma get_results_ok (m : ProModel) (hne : m.fns ≠ [])
    (hiatom : ∀ fn ∈ m.fns, fn.iatom < m.natom) :
    ∃ r, m.get_results = Except.ok r ∧
      r.propars = (m.fns.map BasisFunction.pars).flatten := by
  obtain ⟨c, hc⟩ := getResultsCounts_ok m.fns (List.replicate m.natom 0)
    (List.replicate m.natom 0)
    (fun g hg => by rw [List.length_replicate]; exact hiatom g hg)
  have hemp : (m.fns.map BasisFunction.pars).isEmpty = false := by
    cases hfns : m.fns with
    | nil => exact absurd hfns hne
    | cons a l => rfl
  refine ⟨{ atnfn := c.1, atnpar := c.2, propars := (m.fns.map BasisFunction.pars).flatten },
    ?_, rfl⟩
  rw [ProModel.get_results, hc, bindOk, npConcatenate, hemp]
  rfl

/-- A valid model with one atom and no basis functions. -/
def wEmptyModel : ProModel :=
  { atnums := [1], atcoords := [(0, 0, 0)], fns := [], ncompute := 0 }

/-- C6 counterexample: the zero-function model is a valid `ProModel` and
the empty vector has exactly its total parameter length; `assign_pars`
accepts it, yet `get_results` raises at `np.concatenate` of an empty list,
so no `propars` entry is ever produced. -/
theorem C6_propars_counterexample :
    ([] : List ℚ).length = wEmptyModel.nparTotal ∧
    wEmptyModel.assign_pars [] = Except.ok wEmptyModel ∧
    wEmptyModel.get_results = Except.error "need at least one array to concatenate" :=
  ⟨rfl, rfl, rfl⟩

/-- C6 (amended): whenever `get_results` itself can succeed — the model has
at least one basis function and every function's atom index is in range —
assigning a vector of the model's exact total parameter length and reading
back `get_results` returns that same vector in `propars`. -/
theorem C6_propars_roundtrip (m : ProModel) (p : List ℚ)
    (hlen : p.length = m.nparTotal)
    (hne : m.fns ≠ [])
    (hiatom : ∀ fn ∈ m.fns, fn.iatom < m.natom) :
    ∃ m' r, m.assign_pars p = Except.ok m' ∧ m'.get_results = Except.ok r ∧
      r.propars = p := by
  obtain ⟨m', h1, h2⟩ := assign_pars_ok m p (le_of_eq hlen.symm)
  have hne' : m'.fns ≠ [] := by
    intro hnil
    have hL := assign_pars_fns_length m m' p h1
    rw [hnil] at hL
    exact hne (List.length_eq_zero.mp (by simpa using hL.symm))
  have hnat : m'.natom = m.natom := by
    rw [ProModel.natom, ProModel.natom, assign_pars_atnums m m' p h1]
  have hiatom' : ∀ fn ∈ m'.fns, fn.iatom < m'.natom := by
    intro fn' hfn'
    have hmem : fn'.iatom ∈ m'.fns.map BasisFunction.iatom :=
      List.mem_map_of_mem _ hfn'
    rw [assign_pars_map_iatom m m' p h1] at hmem
    obtain ⟨g, hg, hgeq⟩ := List.mem_map.mp hmem
    rw [hnat, ← hgeq]
    exact hiatom g hg
  obtain ⟨r, hr, hrp⟩ := get_results_ok m' hne' hiatom'
  refine ⟨m', r, h1, hr, ?_⟩
  rw [hrp, h2, ← hlen, List.take_length]

/-- C6 witness: round-trip of `[3]` through the concrete one-function
model. -/
theorem C6_propars_roundtrip_witness :
    ([3] : List ℚ).length = wModel.nparTotal ∧
    ∃ m' r, wModel.assign_pars [3] = Except.ok m' ∧ m'.get_results = Except.ok r ∧
      r.propars = [3] :=
  ⟨by decide, C6_propars_roundtrip wModel [3] (by decide) (List.cons_ne_nil _ _) (by decide)⟩

/-! ### Claim C7: `BasisFunction` construction -/

/-- C7: constructing a basis function with differing parameter and bound
counts fails with the configuration error before anything else happens;
with equal counts it succeeds and stores the four fields. -/
theorem C7_basis_mismatch (iatom : ℕ) (center : Point) (pars : List ℚ)
    (bounds : List (ℚ × ℚ)) (shape : Shape) :
    (pars.length ≠ bounds.length →
      mkBasisFunction iatom center pars bounds shape
        = Except.error "The number of parameters must equal the number of bounds.") ∧
    (pars.length = bounds.length →
      mkBasisFunction iatom center pars bounds shape
        = Except.ok { iatom := iatom, center := center, pars := pars, bounds := bounds, shape := shape }) := by
  constructor
  · intro h
    rw [mkBasisFunction, if_pos h]
  · intro h
    rw [mkBasisFunction, if_neg (not_not_intro h)]

/-- C7 witness: three parameters with two bounds fail; one parameter with
one bound succeeds. -/
theorem C7_basis_mismatch_witness :
    (([0, 0, 0] : List ℚ).length ≠ ([(0, 10), (0, 10)] : List (ℚ × ℚ)).length ∧
      mkBasisFunction 0 (0, 0, 0) [0, 0, 0] [(0, 10), (0, 10)] wShape
        = Except.error "The number of parameters must equal the number of bounds.") ∧
    (([2] : List ℚ).length = ([(0, 10)] : List (ℚ × ℚ)).length ∧
      mkBasisFunction 0 (0, 0, 0) [2] [(0, 10)] wShape = Except.ok wFn) :=
  ⟨⟨by decide, (C7_basis_mismatch 0 (0, 0, 0) [0, 0, 0] [(0, 10), (0, 10)] wShape).1 (by decide)⟩,
   ⟨by decide, (C7_basis_mismatch 0 (0, 0, 0) [2] [(0, 10)] wShape).2 (by decide)⟩⟩

/-! ### Claim C8: radial moments and the evaluation counter -/

/-- C8 counterexample: `compute_radial_moments` does change an observable
field of the model — the evaluation counter — because it calls
`compute_density` once. -/
theorem C8_radial_moments_counterexample :
    (compute_radial_moments (fun _ => 0) wModel wGrid [1] [wLG] 4).1.ncompute
      ≠ wModel.ncompute := by
  decide

/-- C8 amended: `compute_radial_moments` leaves every field of the model —
in particular every basis function's parameters — unchanged, except the
evaluation counter, which increments by exactly one (from its single
`compute_density` call). -/
theorem C8_radial_moments_amended (nrm : Point → ℚ) (m : ProModel) (grid : Grid)
    (density : List ℚ) (localgrids : List LocalGrid) (nmax : ℕ) :
    (compute_radial_moments nrm m grid density localgrids nmax).1
      = { m with ncompute := m.ncompute + 1 } := rfl

/-! ### Claim C9: the driver's convergence check -/

/-- C9: when the minimizer reports failure the driver raises the
convergence error and returns no model; on success it writes the converged
parameters back with `assign_pars` and returns the model together with the
local grids. -/
theorem C9_optimize_driver (minimize : Minimizer) (log : ℚ → ℚ) (m : ProModel) (grid : Grid)
    (density : List ℚ) (gtol cutoff : ℚ) (optres : OptResult) (m₂ : ProModel)
    (hmin : minimize
        (fun p mm => ekld log p grid density mm
          (m.fns.map (fun fn => grid.get_localgrid fn.center
            (fn.shape.get_cutoff_radius fn.pars cutoff)))
          (dotl grid.weights density) (1 / 10 ^ 15))
        ((m.fns.map BasisFunction.pars).flatten)
        ((m.fns.map BasisFunction.bounds).flatten) gtol m = (optres, m₂)) :
    (optres.success = false →
      optimize_pro_model minimize log m grid density gtol cutoff
        = Except.error "Convergence failure.") ∧
    (optres.success = true → ∀ mf, m₂.assign_pars optres.x = Except.ok mf →
      optimize_pro_model minimize log m grid density gtol cutoff
        = Except.ok (mf, m.fns.map (fun fn => grid.get_localgrid fn.center
            (fn.shape.get_cutoff_radius fn.pars cutoff)))) := by
  constructor
  · intro hf
    simp only [optimize_pro_model, hmin, hf]
    simp
  · intro ht mf hassign
    simp only [optimize_pro_model, hmin, ht, hassign, bindOk]
    simp

/-- C9 witness: a concrete successful run through the driver. -/
theorem C9_optimize_driver_witness :
    optimize_pro_model (fun _ _ _ _ mm => ({ success := true, x := [5], message := "" }, mm))
        (fun _ => 0) wModel wGrid [1] 1 1
      = Except.ok ({ wModel with fns := [{ wFn with pars := [5] }] }, [wLG]) :=
  (C9_optimize_driver (fun _ _ _ _ mm => ({ success := true, x := [5], message := "" }, mm))
      (fun _ => 0) wModel wGrid [1] 1 1
      { success := true, x := [5], message := "" } wModel rfl).2
    rfl { wModel with fns := [{ wFn with pars := [5] }] } rfl

/-! ### Claim C10: `compute_proatom` -/

lemma proatom_fold (ia : ℕ) (points : List Point) (fns : List BasisFunction) :
    ∀ (acc : List ℚ),
      (∀ fn ∈ fns, fn.iatom = ia → (fn.shape.compute fn.pars points).length = acc.length) →
      ((fns.foldl (fun pro fn =>
          if fn.iatom = ia then addVec pro (fn.shape.compute fn.pars points) else pro)
          acc).length = acc.length ∧
       ∀ k, k < acc.length →
        (fns.foldl (fun pro fn =>
            if fn.iatom = ia then addVec pro (fn.shape.compute fn.pars points) else pro)
            acc).getD k 0
          = acc.getD k 0 + ((fns.filter (fun fn => fn.iatom == ia)).map
              (fun fn => (fn.shape.compute fn.pars points).getD k 0)).sum) := by
  induction fns with
  | nil => intro acc _; exact ⟨rfl, fun k _ => by simp⟩
  | cons fn rest ih =>
      intro acc h
      by_cases hia : fn.iatom = ia
      · have hlen : (fn.shape.compute fn.pars points).length = acc.length := h fn (by simp) hia
        have hacc : (addVec acc (fn.shape.compute fn.pars points)).length = acc.length := by
          rw [addVec, List.length_zipWith]; omega
        obtain ⟨ih1, ih2⟩ := ih (addVec acc (fn.shape.compute fn.pars points))
          (fun g hg hgi => by rw [hacc]; exact h g (List.mem_cons_of_mem _ hg) hgi)
        constructor
        · rw [List.foldl_cons, if_pos hia, ih1, hacc]
        · intro k hk
          rw [List.foldl_cons, if_pos hia, ih2 k (by rw [hacc]; exact hk),
            addVec, getD_zipWith_lt _ _ _ _ hk (by omega) 0 0 0,
            List.filter_cons_of_pos (by simp [hia])]
          simp only [List.map_cons, List.sum_cons]
          ring
      · obtain ⟨ih1, ih2⟩ := ih acc (fun g hg hgi => h g (List.mem_cons_of_mem _ hg) hgi)
        constructor
        · rw [List.foldl_cons, if_neg hia, ih1]
        · intro k hk
          rw [List.foldl_cons, if_neg hia, ih2 k hk,
            List.filter_cons_of_neg (by simp [hia])]

/-- C10: `compute_proatom` returns, at every point of the given grid, the
sum of exactly those basis functions whose atom index matches; it depends
only on the function list (not the counter) and returns no modified model,
whereas `compute_density` increments the evaluation counter. -/
theorem C10_compute_proatom (m : ProModel) (ia : ℕ) (points : List Point) (weights : List ℚ)
    (h : ∀ fn ∈ m.fns, fn.iatom = ia →
      (fn.shape.compute fn.pars points).length = weights.length) :
    (m.compute_proatom ia points weights).length = weights.length ∧
    (∀ k, k < weights.length →
      (m.compute_proatom ia points weights).getD k 0
        = ((m.fns.filter (fun fn => fn.iatom == ia)).map
            (fun fn => (fn.shape.compute fn.pars points).getD k 0)).sum) ∧
    (∀ n, ProModel.compute_proatom { m with ncompute := n } ia points weights
        = m.compute_proatom ia points weights) ∧
    (∀ (grid : Grid) (localgrids : List LocalGrid),
      (m.compute_density grid localgrids).1.ncompute = m.ncompute + 1) := by
  have hinit : (weights.map (fun _ => (0 : ℚ))).length = weights.length := by
    rw [List.length_map]
  obtain ⟨h1, h2⟩ := proatom_fold ia points m.fns (weights.map (fun _ => 0))
    (fun g hg hgi => by rw [hinit]; exact h g hg hgi)
  refine ⟨?_, ?_, fun n => rfl, fun grid localgrids => rfl⟩
  · rw [ProModel.compute_proatom, h1, hinit]
  · intro k hk
    rw [ProModel.compute_proatom, h2 k (by rw [hinit]; exact hk),
      getD_map_lt _ _ _ hk 0 0]
    simp

/-- C10 witness: the concrete one-function model on the global grid. -/
theorem C10_compute_proatom_witness :
    (wModel.compute_proatom 0 wGrid.points wGrid.weights).length = wGrid.weights.length ∧
    (∀ k, k < wGrid.weights.length →
      (wModel.compute_proatom 0 wGrid.points wGrid.weights).getD k 0
        = ((wModel.fns.filter (fun fn => fn.iatom == 0)).map
            (fun fn => (fn.shape.compute fn.pars wGrid.points).getD k 0)).sum) ∧
    (∀ n, ProModel.compute_proatom { wModel with ncompute := n } 0 wGrid.points wGrid.weights
        = wModel.compute_proatom 0 wGrid.points wGrid.weights) ∧
    (∀ (grid : Grid) (localgrids : List LocalGrid),
      (wModel.compute_density grid localgrids).1.ncompute = wModel.ncompute + 1) :=
  C10_compute_proatom wModel 0 wGrid.points wGrid.weights (by decide)
